import Mathlib

/-!
The LibChaos `ZImage` (src/chaos/file/zimage.h)

A shallow embedding of the raw pixel-buffer class `ZImage`.

* `zu64` values are natural numbers taken modulo `2^64`, `zu8` values are
  natural numbers taken modulo `2^8`; every arithmetic expression of the
  source is written with the truncation it has in C++ (the operands of
  `_channels * _depth` are promoted to `int`, so that product is exact and
  only the conversion of the result to `zu8` truncates).
* A byte is a natural number, a heap block is a `List Nat` whose length is the
  allocation size, and the pointer `_buffer` is an `Option (List Nat)`
  (`none` is `nullptr`).
* An operation that may touch memory outside a block returns an `Option`:
  `none` stands for an out-of-bounds access (undefined behaviour in C++).
-/

namespace LibChaos

/-- Modulus of the unsigned 64-bit type `zu64`. -/
def U64 : Nat := 2 ^ 64

/-- Modulus of the unsigned 8-bit type `zu8`. -/
def U8 : Nat := 2 ^ 8

/-- The data members of `ZImage`: `_width`, `_height` (`zu64`), `_channels`,
`_depth` (`zu8`) and the owned pointer `_buffer`. -/
structure ZImage where
  width : Nat
  height : Nat
  channels : Nat
  depth : Nat
  buffer : Option (List Nat)
deriving DecidableEq, Repr

/-- The members hold values of their C++ types. -/
def ZImage.InRange (s : ZImage) : Prop :=
  s.width < U64 ∧ s.height < U64 ∧ s.channels < U8 ∧ s.depth < U8

namespace ZImage

/-- The default constructor `ZImage()`: all metadata zero, `_buffer(nullptr)`. -/
def empty : ZImage :=
  { width := 0, height := 0, channels := 0, depth := 0, buffer := none }

/-- Method `zu8 pixelSize() const { return (_channels * _depth) / 8; }`:
the quotient is computed in `int` and truncated to `zu8` on return. -/
def pixelSize (s : ZImage) : Nat :=
  ((s.channels * s.depth) / 8) % U8

/-- Method `zu64 rowSize() const { return _width * pixelSize(); }`. -/
def rowSize (s : ZImage) : Nat :=
  (s.width * pixelSize s) % U64

/-- Method `zu64 size() const { return _width * _height * pixelSize(); }`. -/
def size (s : ZImage) : Nat :=
  (((s.width * s.height) % U64) * pixelSize s) % U64

/-- Method `validDimensions()`:
`_width && _height && _channels && _depth && ((_channels * _depth) % 8) == 0 && size()`. -/
def validDimensions (s : ZImage) : Bool :=
  (s.width != 0) && (s.height != 0) && (s.channels != 0) && (s.depth != 0)
    && ((s.channels * s.depth) % 8 == 0) && (size s != 0)

/-- Method `isLoaded()`: `validDimensions() && _buffer != nullptr`. -/
def isLoaded (s : ZImage) : Bool :=
  validDimensions s && s.buffer.isSome

/-- Method `realSize()`: `!_buffer ? 0 : size()`. -/
def realSize (s : ZImage) : Nat :=
  match s.buffer with
  | none => 0
  | some _ => size s

/-- Method `operator[](zu64 i)`: `_buffer[i]`; `none` when there is no buffer or the
index is outside the block. -/
def get (s : ZImage) (i : Nat) : Option Nat :=
  match s.buffer with
  | none => none
  | some b => b[i]?

/-- Method `destroy()`: metadata reset to zero, buffer deleted. -/
def destroy (_s : ZImage) : ZImage :=
  { width := 0, height := 0, channels := 0, depth := 0, buffer := none }

/-- The size `setDimensions` computes for the requested shape:
`width * height * ((zu8)(channels * depth) / (zu8)8)`; the product of the two
`zu8` values is truncated to 8 bits before the division. -/
def requestedSize (width height channels depth : Nat) : Nat :=
  (((width * height) % U64) * (((channels * depth) % U8) / 8)) % U64

/-- Method `setDimensions(width, height, channels, depth)`: `destroy()` when one of
the values is zero, the bits per pixel are not a multiple of 8, or the
requested size differs from the current `size()`; then the four values are
stored. The arguments are values of their parameter types. -/
def setDimensions (s : ZImage) (width height channels depth : Nat) : ZImage :=
  let s1 :=
    if width = 0 ∨ height = 0 ∨ channels = 0 ∨ depth = 0
        ∨ ((channels * depth) % U8) % 8 ≠ 0
        ∨ requestedSize width height channels depth ≠ size s
    then destroy s else s
  { s1 with width := width, height := height, channels := channels, depth := depth }

/-- The constructor `ZImage(zu64 width, zu64 height, zu8 channels, zu8 depth)`:
`ZImage()` followed by `setDimensions`. -/
def mkDims (width height channels depth : Nat) : ZImage :=
  setDimensions empty width height channels depth

/-- Allocation `new byte[n]`: a block of `n` bytes whose contents are whatever the
allocator left there, given by `fresh`. -/
def allocBytes (n : Nat) (fresh : Nat → Nat) : List Nat :=
  (List.range n).map fresh

/-- Library call `memset(dst, v, n)`: overwrites the first `n` bytes of the block; `none`
when the block is shorter than `n`. -/
def memset (dst : List Nat) (v n : Nat) : Option (List Nat) :=
  if n ≤ dst.length then some (List.replicate n v ++ dst.drop n) else none

/-- Library call `memcpy(dst, src, n)`: copies the first `n` bytes of `src` over the first
`n` bytes of `dst`; `none` when `src` is null or one of the blocks is shorter
than `n`. -/
def memcpy (dst : List Nat) (src : Option (List Nat)) (n : Nat) : Option (List Nat) :=
  match src with
  | none => none
  | some bytes =>
    if n ≤ dst.length ∧ n ≤ bytes.length then some (bytes.take n ++ dst.drop n) else none

/-- Method `newData()`: allocates `size()` bytes when the dimensions are valid and
there is no buffer. -/
def newData (s : ZImage) (fresh : Nat → Nat) : ZImage :=
  if validDimensions s then
    match s.buffer with
    | none => { s with buffer := some (allocBytes (size s) fresh) }
    | some _ => s
  else s

/-- Method `zeroData()`: allocates when needed, then `memset(_buffer, 0, size())`.
The contents given to a new block here do not matter, the call overwrites
all of it. -/
def zeroData (s : ZImage) : Option ZImage :=
  if validDimensions s then
    let b := match s.buffer with
      | none => allocBytes (size s) (fun _ => 0)
      | some b => b
    match memset b 0 (size s) with
    | none => none
    | some b1 => some { s with buffer := some b1 }
  else some s

/-- Method `copyData(data)`: allocates when needed, then
`memcpy(_buffer, data, size())`. The contents given to a new block here do
not matter, the call overwrites all of it. -/
def copyData (s : ZImage) (data : Option (List Nat)) : Option ZImage :=
  if validDimensions s then
    let b := match s.buffer with
      | none => allocBytes (size s) (fun _ => 0)
      | some b => b
    match memcpy b data (size s) with
    | none => none
    | some b1 => some { s with buffer := some b1 }
  else some s

/-- Method `takeData(data)`: `_buffer = data` when the dimensions are valid. -/
def takeData (s : ZImage) (data : Option (List Nat)) : ZImage :=
  if validDimensions s then { s with buffer := data } else s

/-- Method `reformat(before, after)`: the body is `if(_depth % 8 == 0){ }`, with
nothing in the branch. -/
def reformat (s : ZImage) (_before _after : List Char) : ZImage :=
  if s.depth % 8 = 0 then s else s

/-- The truncation loop of `setChannels`:
`for(i = 0, j = 0; i < temp.realSize() && j < realSize(); ++i, ++j, ++cycle)`
with body `if(cycle >= _channels) j += _channels - channels; temp[i] = _buffer[j];`.
The first argument is `temp.realSize() - i`, so that `i < temp.realSize()`
is the successor case. `src` is `_buffer`, `rsize` is `realSize()`. The result
is the block of `temp` when the loop ends, `none` when a read or write falls
outside its block. -/
def truncateLoop (src : List Nat) (rsize chOld chNew : Nat) :
    Nat → Nat → Nat → Nat → List Nat → Option (List Nat)
  | 0, _, _, _, temp => some temp
  | remaining + 1, i, j, cycle, temp =>
    if j < rsize then
      let j1 := if cycle ≥ chOld then (j + (chOld - chNew)) % U64 else j
      match src[j1]? with
      | none => none
      | some b =>
        if i < temp.length then
          truncateLoop src rsize chOld chNew remaining (i + 1) ((j1 + 1) % U64)
            ((cycle + 1) % U8) (temp.set i b)
        else none
    else some temp

/-- The block of the local `temp` at the end of `setChannels`, when `temp` is
built and the truncation loop runs: `some none` is no block. -/
def setChannelsTemp (s : ZImage) (channels : Nat) : Option (Option (List Nat)) :=
  let temp := mkDims s.width s.height channels s.depth
  if validDimensions temp then
    match zeroData temp with
    | none => none
    | some temp1 =>
      if s.channels > channels then
        match temp1.buffer with
        | none => some none
        | some dst =>
          (truncateLoop (s.buffer.getD []) (realSize s) s.channels channels
            (realSize temp1) 0 0 0 dst).map some
      else some temp1.buffer
  else some temp.buffer

/-- Method `setChannels(channels, fill)`: when the count changes and the dimensions
are valid, a local image `temp` is built, zeroed and (when the count shrinks)
filled by the truncation loop; `temp` is destroyed at the end of its block and
`_channels = channels` is the only assignment to a member. `fill` is not
used by the body. -/
def setChannels (s : ZImage) (channels : Nat) (_fill : Int) : Option ZImage :=
  if channels ≠ s.channels then
    if validDimensions s then
      match setChannelsTemp s channels with
      | none => none
      | some _ => some { s with channels := channels }
    else some { s with channels := channels }
  else some s

end ZImage

/-- The mutating operations of `ZImage`, with their arguments. -/
inductive Op where
  | setDimensions (width height channels depth : Nat)
  | newData (fresh : Nat → Nat)
  | zeroData
  | copyData (data : List Nat)
  | takeData (data : List Nat)
  | reformat (before after : List Char)
  | setChannels (channels : Nat) (fill : Int)
  | destroy

/-- One call on an image. -/
def Op.apply (s : ZImage) : Op → Option ZImage
  | .setDimensions w h c d => some (s.setDimensions w h c d)
  | .newData fresh => some (s.newData fresh)
  | .zeroData => s.zeroData
  | .copyData data => s.copyData (some data)
  | .takeData data => some (s.takeData (some data))
  | .reformat before after => some (s.reformat before after)
  | .setChannels c fill => s.setChannels c fill
  | .destroy => some s.destroy

/-- A sequence of calls, left to right. -/
def run (s : ZImage) : List Op → Option ZImage
  | [] => some s
  | op :: ops =>
    match op.apply s with
    | none => none
    | some s1 => run s1 ops

/-- The precondition the calls of a sequence are made under: `copyData` is
given at least `size()` bytes and `takeData` exactly `size()` bytes. -/
def Op.Admissible (s : ZImage) : Op → Prop
  | .copyData data => s.size ≤ data.length
  | .takeData data => data.length = s.size
  | _ => True

/-- Invariant I2: a present buffer has length `size()`. -/
def SizeInvariant (s : ZImage) : Prop :=
  ∀ b, s.buffer = some b → b.length = s.size

/-! ### Concrete images used as test inputs -/

/-- A loaded 2x2 RGB image, 8 bits per channel, bytes 1..12. -/
def rgb2x2 : ZImage :=
  { width := 2, height := 2, channels := 3, depth := 8,
    buffer := some [1, 2, 3, 4, 5, 6, 7, 8, 9, 10, 11, 12] }

/-- A loaded 1x1 single-channel image, 8 bits per channel. -/
def gray1x1 : ZImage :=
  { width := 1, height := 1, channels := 1, depth := 8, buffer := some [7] }

/-- A loaded 1x1 image with 33 channels of 8 bits (264 bits per pixel). -/
def wide1x1 : ZImage :=
  { width := 1, height := 1, channels := 33, depth := 8,
    buffer := some (List.replicate 33 0) }

/-- A loaded 1x1 RGB image, 8 bits per channel, bytes 1, 2, 3. -/
def rgb1x1 : ZImage :=
  { width := 1, height := 1, channels := 3, depth := 8, buffer := some [1, 2, 3] }

/-- A loaded image 1 wide and 4 high, RGB, 8 bits per channel, bytes 1..12. -/
def thin1x4 : ZImage :=
  { width := 1, height := 4, channels := 3, depth := 8,
    buffer := some [1, 2, 3, 4, 5, 6, 7, 8, 9, 10, 11, 12] }

/-! ### Constructors that copy -/

namespace ZImage

/-- The constructor `ZImage(const byte *data, zu64 width, zu64 height, zu8 channels, zu8 depth)`:
`ZImage()`, then `setDimensions(width, height, channels, depth)`, then
`copyData(data)`. -/
def mkData (data : Option (List Nat)) (width height channels depth : Nat) : Option ZImage :=
  copyData (mkDims width height channels depth) data

/-- The copy constructor `ZImage(const ZImage &other)`, which delegates to
`ZImage(other._buffer, other._width, other._height, other._channels, other._depth)`. -/
def mkCopy (other : ZImage) : Option ZImage :=
  mkData other.buffer other.width other.height other.channels other.depth

/-- The index pairs `(i, j)` of the accesses `temp[i] = _buffer[j]` the
truncation loop of `setChannels` makes, in order: the loop of `truncateLoop`
with the accesses recorded instead of performed (its control flow does not
read the data). The first argument is `temp.realSize() - i`. -/
def truncateAccesses (rsize chOld chNew : Nat) : Nat → Nat → Nat → Nat → List (Nat × Nat)
  | 0, _, _, _ => []
  | remaining + 1, i, j, cycle =>
    if j < rsize then
      let j1 := if cycle ≥ chOld then (j + (chOld - chNew)) % U64 else j
      (i, j1) :: truncateAccesses rsize chOld chNew remaining (i + 1) ((j1 + 1) % U64)
        ((cycle + 1) % U8)
    else []

/-- The truncation loop of `setChannels` as the machine runs it: the loop of
`truncateLoop`, where a read `_buffer[j]` that falls outside the block yields
the byte `stray j` that memory holds at that place instead of stopping the
run. The write `temp[i]` is made under the loop test `i < temp.realSize()`.
The first argument is `temp.realSize() - i`. The result is the block of
`temp` when the loop ends. -/
def truncateLoopStray (stray : Nat → Nat) (src : List Nat) (rsize chOld chNew : Nat) :
    Nat → Nat → Nat → Nat → List Nat → List Nat
  | 0, _, _, _, temp => temp
  | remaining + 1, i, j, cycle, temp =>
    if j < rsize then
      let j1 := if cycle ≥ chOld then (j + (chOld - chNew)) % U64 else j
      let b := match src[j1]? with
        | none => stray j1
        | some b => b
      truncateLoopStray stray src rsize chOld chNew remaining (i + 1) ((j1 + 1) % U64)
        ((cycle + 1) % U8) (temp.set i b)
    else temp

/-- The block of the local `temp` at the end of `setChannels` as the machine
runs it (reads outside `_buffer` yield `stray`): `none` is no block. The
local `temp` is built without a buffer, so its `zeroData()` allocates and
returns. -/
def setChannelsTempStray (stray : Nat → Nat) (s : ZImage) (channels : Nat) :
    Option (List Nat) :=
  let temp := mkDims s.width s.height channels s.depth
  if validDimensions temp then
    match zeroData temp with
    | none => temp.buffer
    | some temp1 =>
      if s.channels > channels then
        match temp1.buffer with
        | none => none
        | some dst =>
          some (truncateLoopStray stray (s.buffer.getD []) (realSize s) s.channels channels
            (realSize temp1) 0 0 0 dst)
      else temp1.buffer
  else temp.buffer

/-- Method `setChannels(channels, fill)` as the machine runs it: the state of
the image after the call. The local `temp` is built, zeroed and filled by the
truncation loop as in `setChannels`, a read outside `_buffer` yielding the
byte `stray` gives for it; `temp` is destroyed at the end of its block and
`_channels = channels` is the only assignment to a member. -/
def setChannelsStray (stray : Nat → Nat) (s : ZImage) (channels : Nat) (_fill : Int) :
    ZImage :=
  if channels ≠ s.channels then
    if validDimensions s then
      let _temp := setChannelsTempStray stray s channels
      { s with channels := channels }
    else { s with channels := channels }
  else s

end ZImage

/-! ### Call sequences without `setChannels` and `takeData` -/

/-- The calls of the restricted sequences: `setDimensions` with
`channels * depth < 256`, `newData`, `zeroData`, `copyData`, `reformat` and
`destroy`. -/
def Op.Restricted : Op → Prop
  | .setDimensions _ _ c d => c * d < 256
  | .newData _ => True
  | .zeroData => True
  | .copyData _ => True
  | .takeData _ => False
  | .reformat _ _ => True
  | .setChannels _ _ => False
  | .destroy => True

/-- A sequence of restricted calls started in `s`, each made under its
precondition in the state it is applied to. -/
def RestrictedRun (s : ZImage) : List Op → Prop
  | [] => True
  | op :: ops =>
    op.Restricted ∧ op.Admissible s ∧
      match op.apply s with
      | none => True
      | some s1 => RestrictedRun s1 ops

/-- A present buffer comes with valid dimensions and has length `size()`. -/
def LoadedInvariant (s : ZImage) : Prop :=
  ∀ b, s.buffer = some b → s.validDimensions = true ∧ b.length = s.size

/-- A sequence of restricted calls: construct a 2x2 RGB shape, zero it, copy
13 source bytes in, reshape to 3x2 with 2 channels (same size), allocate,
reformat. -/
def restrictedCalls : List Op :=
  [.setDimensions 2 2 3 8, .zeroData, .copyData (List.range 13), .setDimensions 3 2 2 8,
    .newData (fun _ => 9), .reformat ['R'] ['G']]

end LibChaos

namespace LibChaos

open ZImage

/-! ## Auxiliary facts about the embedding -/

/-- Replacing the buffer does not change `size()`. -/
theorem size_withBuffer (s : ZImage) (b : Option (List Nat)) :
    size { s with buffer := b } = size s := rfl

/-- Replacing the buffer does not change `validDimensions()`. -/
theorem validDimensions_withBuffer (s : ZImage) (b : Option (List Nat)) :
    validDimensions { s with buffer := b } = validDimensions s := rfl

/-- The Boolean test of `validDimensions()` as a proposition. -/
theorem validDimensions_iff (s : ZImage) :
    validDimensions s = true ↔
      s.width ≠ 0 ∧ s.height ≠ 0 ∧ s.channels ≠ 0 ∧ s.depth ≠ 0
        ∧ (s.channels * s.depth) % 8 = 0 ∧ size s ≠ 0 := by
  simp [validDimensions, and_assoc]

/-- A freshly allocated block has the requested length. -/
theorem allocBytes_length (n : Nat) (fresh : Nat → Nat) :
    (allocBytes n fresh).length = n := by
  simp [allocBytes]

/-- The block `zeroData` and `copyData` write to: the present buffer, or a new
block of `size()` bytes. -/
theorem target_length (s : ZImage)
    (hb : s.buffer = none ∨ ∃ b, s.buffer = some b ∧ b.length = size s) :
    (match s.buffer with
      | none => allocBytes (size s) (fun _ => 0)
      | some b => b).length = size s := by
  rcases hb with h | ⟨b, h, hl⟩
  · rw [h]; exact allocBytes_length _ _
  · rw [h]; exact hl

/-- `memset` over a whole block gives the constant block. -/
theorem memset_full (dst : List Nat) (v n : Nat) (h : dst.length = n) :
    memset dst v n = some (List.replicate n v) := by
  subst h
  simp [memset]

/-- `memcpy` over a whole block gives the first `n` source bytes. -/
theorem memcpy_full (dst src : List Nat) (n : Nat) (h : dst.length = n)
    (hs : n ≤ src.length) : memcpy dst (some src) n = some (src.take n) := by
  subst h
  simp [memcpy, hs]

end LibChaos

namespace LibChaos

open ZImage

/-! ## Size invariant -/

/-- C1 (the code breaks the invariant): from `ZImage()`, the calls
`setDimensions(2,2,3,8)`, `zeroData()`, `setChannels(1)` all return, and the
state they reach has a 12-byte buffer while `size()` is 4, so the buffer
length differs from `size()`. No call of the sequence is a `copyData` or a
`takeData`, so the preconditions on those are met. -/
theorem size_invariant_broken_by_setChannels :
    (∃ s, run empty [.setDimensions 2 2 3 8, .zeroData, .setChannels 1 0] = some s
      ∧ s.buffer = some (List.replicate 12 0) ∧ size s = 4 ∧ ¬ SizeInvariant s)
    ∧ Op.Admissible empty (.setDimensions 2 2 3 8)
    ∧ Op.Admissible (mkDims 2 2 3 8) .zeroData
    ∧ SizeInvariant empty := by
  refine ⟨⟨ZImage.mk 2 2 1 8 (some (List.replicate 12 0)), (by decide), rfl, (by decide), ?_⟩,
    trivial, trivial, ?_⟩
  · intro h
    have h12 := h (List.replicate 12 0) rfl
    revert h12
    decide
  · intro b hb
    cases hb

/-! ## `setDimensions` -/

/-- C2 (the code keeps the buffer although the size changes): `gray1x1` is
loaded with a buffer of `size() = 1` byte; after `setDimensions(1,1,33,8)` the
dimensions are valid, `size()` is 33, and the one-byte buffer is still
present. -/
theorem setDimensions_keeps_buffer_on_size_change :
    isLoaded gray1x1 = true
    ∧ gray1x1.buffer = some [7] ∧ size gray1x1 = 1
    ∧ requestedSize 1 1 33 8 = 1
    ∧ size (setDimensions gray1x1 1 1 33 8) = 33
    ∧ validDimensions (setDimensions gray1x1 1 1 33 8) = true
    ∧ (setDimensions gray1x1 1 1 33 8).buffer = some [7] := by
  decide

/-- C3 (the code drops the buffer although the size is unchanged and the
shape valid): `wide1x1` is loaded with a buffer of `size() = 33` bytes; after
`setDimensions(1,1,33,8)`, the very dimensions it already has, the dimensions
are valid, `size()` is still 33, and the buffer is absent. -/
theorem setDimensions_drops_buffer_on_same_size :
    isLoaded wide1x1 = true
    ∧ wide1x1.buffer = some (List.replicate 33 0) ∧ size wide1x1 = 33
    ∧ requestedSize 1 1 33 8 = 1
    ∧ validDimensions (setDimensions wide1x1 1 1 33 8) = true
    ∧ size (setDimensions wide1x1 1 1 33 8) = size wide1x1
    ∧ (setDimensions wide1x1 1 1 33 8).buffer = none := by
  decide

/-! ## Size formula -/

/-- C4 (counterexample): for width = height = 2^32, one channel of 8 bits, all
four values are nonzero, in range, with `(channels*depth) % 8 = 0`, yet
`size()` is 0 while `width*height*channels*depth/8` is `2^64`, and
`validDimensions()` is false. -/
theorem size_formula_counterexample :
    (2 ^ 32 < U64 ∧ 1 < U8 ∧ 8 < U8 ∧ (1 * 8) % 8 = 0)
    ∧ size (mkDims (2 ^ 32) (2 ^ 32) 1 8) = 0
    ∧ 2 ^ 32 * 2 ^ 32 * 1 * 8 / 8 = 2 ^ 64
    ∧ size (mkDims (2 ^ 32) (2 ^ 32) 1 8) ≠ 2 ^ 32 * 2 ^ 32 * 1 * 8 / 8
    ∧ validDimensions (mkDims (2 ^ 32) (2 ^ 32) 1 8) = false := by
  decide

/-- C4 (amended): when all four dimensions are nonzero, `(channels*depth) % 8`
is 0, the bytes per pixel `channels*depth/8` fit the 8-bit result of
`pixelSize()`, and `width*height*channels*depth/8` fits 64 bits, `size()` is
`width*height*channels*depth/8` over the natural numbers and
`validDimensions()` is true. -/
theorem size_formula_no_overflow (s : ZImage)
    (hw : s.width ≠ 0) (hh : s.height ≠ 0) (hc : s.channels ≠ 0) (hd : s.depth ≠ 0)
    (h8 : (s.channels * s.depth) % 8 = 0)
    (hp : s.channels * s.depth / 8 < U8)
    (hs : s.width * s.height * s.channels * s.depth / 8 < U64) :
    size s = s.width * s.height * s.channels * s.depth / 8
      ∧ validDimensions s = true := by
  have hdvd : 8 ∣ s.channels * s.depth := Nat.dvd_of_mod_eq_zero h8
  have e : s.width * s.height * s.channels * s.depth / 8
      = s.width * s.height * (s.channels * s.depth / 8) := by
    rw [Nat.mul_assoc (s.width * s.height) s.channels s.depth, Nat.mul_div_assoc _ hdvd]
  have hcd : 0 < s.channels * s.depth :=
    Nat.mul_pos (Nat.pos_of_ne_zero hc) (Nat.pos_of_ne_zero hd)
  have hk : 0 < s.channels * s.depth / 8 :=
    Nat.div_pos (Nat.le_of_dvd hcd hdvd) (by norm_num)
  have hwh0 : 0 < s.width * s.height :=
    Nat.mul_pos (Nat.pos_of_ne_zero hw) (Nat.pos_of_ne_zero hh)
  rw [e] at hs
  have hwh : s.width * s.height < U64 :=
    lt_of_le_of_lt (Nat.le_mul_of_pos_right _ hk) hs
  have hsize : size s = s.width * s.height * (s.channels * s.depth / 8) := by
    unfold size pixelSize
    rw [Nat.mod_eq_of_lt hp, Nat.mod_eq_of_lt hwh, Nat.mod_eq_of_lt hs]
  refine ⟨by rw [hsize, e], ?_⟩
  rw [validDimensions_iff]
  refine ⟨hw, hh, hc, hd, h8, ?_⟩
  rw [hsize]
  exact Nat.ne_of_gt (Nat.mul_pos hwh0 hk)

/-- C4 (amended), applied to a 2x2 RGB image of 8-bit channels: 12 bytes. -/
theorem size_formula_no_overflow_witness :
    ((3 * 8) % 8 = 0 ∧ 3 * 8 / 8 < U8 ∧ 2 * 2 * 3 * 8 / 8 < U64)
      ∧ size rgb2x2 = 2 * 2 * 3 * 8 / 8 ∧ validDimensions rgb2x2 = true :=
  ⟨by decide,
    size_formula_no_overflow rgb2x2 (by decide) (by decide) (by decide) (by decide)
      (by decide) (by decide) (by decide)⟩

/-! ## `setChannels` and `reformat` -/

/-- C5 (the code never installs the truncated buffer): `rgb2x2` is a loaded
2x2 RGB image with bytes 1..12; `setChannels(1)` returns with `_channels = 1`
and the 12-byte buffer 1..12 unchanged, not the 4 bytes 1, 4, 7, 10. The
local `temp` it drops holds 1, 2, 3, 6. -/
theorem setChannels_one_keeps_rgb_buffer :
    isLoaded rgb2x2 = true
    ∧ setChannels rgb2x2 1 0 = some (ZImage.mk 2 2 1 8 rgb2x2.buffer)
    ∧ rgb2x2.buffer = some [1, 2, 3, 4, 5, 6, 7, 8, 9, 10, 11, 12]
    ∧ size (ZImage.mk 2 2 1 8 rgb2x2.buffer) = 4
    ∧ setChannelsTemp rgb2x2 1 = some (some [1, 2, 3, 6]) := by
  decide

/-- C6 (the code does no remapping): on the loaded 1x1 RGB image with bytes
1, 2, 3 and depth 8, `reformat` from R,G,B to B,G,R leaves the image as it
was (first byte 1, not 3), and `reformat` from R,G,B to R,G,B,A leaves the
channel count at 3, not 4. -/
theorem reformat_leaves_rgb_pixel :
    rgb1x1.depth % 8 = 0
    ∧ isLoaded rgb1x1 = true
    ∧ reformat rgb1x1 ['R', 'G', 'B'] ['B', 'G', 'R'] = rgb1x1
    ∧ (reformat rgb1x1 ['R', 'G', 'B'] ['B', 'G', 'R']).get 0 = some 1
    ∧ rgb1x1.get 2 = some 3
    ∧ (reformat rgb1x1 ['R', 'G', 'B'] ['R', 'G', 'B', 'A']).channels = 3 := by
  decide

/-! ## Allocation and data transfer -/

/-- The buffer of a freshly constructed image is absent. -/
theorem mkDims_buffer (w h c d : Nat) : (mkDims w h c d).buffer = none := by
  unfold mkDims setDimensions
  split <;> rfl

/-- C7: when the dimensions are valid, the buffer is absent or has length
`size()`, and the source has at least `size()` bytes, `copyData(source)`
returns a loaded image whose buffer has length exactly `size()`, whose byte at
every index below `size()` is the source byte at that index, and whose width,
height, channels and depth are unchanged. -/
theorem copyData_roundtrip (s : ZImage) (data : List Nat)
    (hv : validDimensions s = true)
    (hb : s.buffer = none ∨ ∃ b, s.buffer = some b ∧ b.length = size s)
    (hd : size s ≤ data.length) :
    ∃ s1 b1, copyData s (some data) = some s1
      ∧ isLoaded s1 = true
      ∧ s1.buffer = some b1 ∧ b1.length = size s1
      ∧ (∀ i, i < size s1 → ∃ v, data[i]? = some v ∧ s1.get i = some v)
      ∧ s1.width = s.width ∧ s1.height = s.height
      ∧ s1.channels = s.channels ∧ s1.depth = s.depth := by
  refine ⟨{ s with buffer := some (data.take (size s)) }, data.take (size s),
    ?_, ?_, rfl, ?_, ?_, rfl, rfl, rfl, rfl⟩
  · simp only [copyData, hv, if_true, memcpy_full _ _ _ (target_length s hb) hd]
  · simp [isLoaded, validDimensions_withBuffer, hv]
  · rw [List.length_take, min_eq_left hd]
    rfl
  · intro i hi
    rw [size_withBuffer] at hi
    have hlt : i < data.length := lt_of_lt_of_le hi hd
    refine ⟨data[i], List.getElem?_eq_getElem hlt, ?_⟩
    simp only [ZImage.get]
    rw [List.getElem?_take, if_pos hi]
    exact List.getElem?_eq_getElem hlt

/-- C7 at a 2x2 RGB image without a buffer and a 13-byte source. -/
theorem copyData_roundtrip_witness :
    (validDimensions (mkDims 2 2 3 8) = true ∧ (mkDims 2 2 3 8).buffer = none
      ∧ size (mkDims 2 2 3 8) ≤ (List.range 13).length) ∧
    ∃ s1 b1, copyData (mkDims 2 2 3 8) (some (List.range 13)) = some s1
      ∧ isLoaded s1 = true
      ∧ s1.buffer = some b1 ∧ b1.length = size s1
      ∧ (∀ i, i < size s1 → ∃ v, (List.range 13)[i]? = some v ∧ s1.get i = some v)
      ∧ s1.width = (mkDims 2 2 3 8).width ∧ s1.height = (mkDims 2 2 3 8).height
      ∧ s1.channels = (mkDims 2 2 3 8).channels ∧ s1.depth = (mkDims 2 2 3 8).depth :=
  ⟨by decide,
    copyData_roundtrip (mkDims 2 2 3 8) (List.range 13) (by decide) (Or.inl (by decide))
      (by decide)⟩

/-- C8: when the image constructed with `(width, height, channels, depth)` has
valid dimensions, it has no buffer and is not loaded, and `zeroData()` returns
a loaded image whose buffer is exactly `size()` zero bytes. -/
theorem construct_then_zeroData (w h c d : Nat)
    (hv : validDimensions (mkDims w h c d) = true) :
    (mkDims w h c d).buffer = none
      ∧ isLoaded (mkDims w h c d) = false
      ∧ ∃ s1, zeroData (mkDims w h c d) = some s1
          ∧ isLoaded s1 = true
          ∧ s1.buffer = some (List.replicate (size (mkDims w h c d)) 0)
          ∧ size s1 = size (mkDims w h c d) := by
  have hbuf := mkDims_buffer w h c d
  refine ⟨hbuf, by simp [isLoaded, hbuf],
    { mkDims w h c d with buffer := some (List.replicate (size (mkDims w h c d)) 0) },
    ?_, ?_, rfl, rfl⟩
  · simp only [zeroData, hv, if_true,
      memset_full _ 0 _ (target_length (mkDims w h c d) (Or.inl hbuf))]
  · simp [isLoaded, validDimensions_withBuffer, hv]

/-- C8 at `(2,2,3,8)`: `size()` is 12, the constructed image is not loaded,
and `zeroData()` gives a loaded image of 12 zero bytes. -/
theorem construct_then_zeroData_witness :
    validDimensions (mkDims 2 2 3 8) = true
      ∧ size (mkDims 2 2 3 8) = 12
      ∧ (mkDims 2 2 3 8).buffer = none
      ∧ isLoaded (mkDims 2 2 3 8) = false
      ∧ ∃ s1, zeroData (mkDims 2 2 3 8) = some s1
          ∧ isLoaded s1 = true
          ∧ s1.buffer = some (List.replicate (size (mkDims 2 2 3 8)) 0)
          ∧ size s1 = size (mkDims 2 2 3 8) :=
  ⟨by decide, by decide, construct_then_zeroData 2 2 3 8 (by decide)⟩

/-- C9: when `validDimensions()` is false, `newData()`, `zeroData()`,
`copyData(data)` and `takeData(data)` all return (no out-of-bounds access, no
error value) and leave the whole state, metadata and buffer, as it was; this
holds for every pointer `data`, null included. -/
theorem invalid_dimensions_noop (s : ZImage) (fresh : Nat → Nat)
    (data : Option (List Nat)) (hv : validDimensions s = false) :
    newData s fresh = s ∧ zeroData s = some s
      ∧ copyData s data = some s ∧ takeData s data = s := by
  simp [newData, zeroData, copyData, takeData, hv]

/-- C9 at the image constructed with `(0, 5, 3, 8)` and a 3-byte `data`. -/
theorem invalid_dimensions_noop_witness :
    validDimensions (mkDims 0 5 3 8) = false
      ∧ newData (mkDims 0 5 3 8) (fun _ => 9) = mkDims 0 5 3 8
      ∧ zeroData (mkDims 0 5 3 8) = some (mkDims 0 5 3 8)
      ∧ copyData (mkDims 0 5 3 8) (some [1, 2, 3]) = some (mkDims 0 5 3 8)
      ∧ takeData (mkDims 0 5 3 8) (some [1, 2, 3]) = mkDims 0 5 3 8 :=
  ⟨by decide, invalid_dimensions_noop (mkDims 0 5 3 8) (fun _ => 9) (some [1, 2, 3])
    (by decide)⟩

/-! ## Validity -/

/-- C10: `validDimensions()` is true exactly when width, height, channels and
depth are positive, `(channels*depth) % 8` is 0 and `size()` is positive; it
is the same for every buffer; and the image constructed with `(0, 5, 3, 8)`
has it false whatever buffer it is given. -/
theorem validDimensions_characterisation :
    (∀ s : ZImage, validDimensions s = true ↔
      0 < s.width ∧ 0 < s.height ∧ 0 < s.channels ∧ 0 < s.depth
        ∧ (s.channels * s.depth) % 8 = 0 ∧ 0 < size s)
    ∧ (∀ (s : ZImage) (b : Option (List Nat)),
        validDimensions { s with buffer := b } = validDimensions s)
    ∧ (∀ b : Option (List Nat),
        validDimensions { mkDims 0 5 3 8 with buffer := b } = false) := by
  refine ⟨fun s => ?_, fun s b => rfl, fun b => ?_⟩
  · rw [validDimensions_iff]
    simp only [Nat.pos_iff_ne_zero]
  · rw [validDimensions_withBuffer]
    decide

end LibChaos

namespace LibChaos

open ZImage

/-! ## Further auxiliary facts -/

/-- The constructor with dimensions stores the four values and has no buffer. -/
theorem mkDims_eq (w h c d : Nat) : mkDims w h c d = ZImage.mk w h c d none := by
  unfold mkDims setDimensions
  split <;> rfl

/-- With valid dimensions, a target block of `size()` bytes and enough source
bytes, `copyData` returns the image with the first `size()` source bytes. -/
theorem copyData_of_valid (s : ZImage) (data : List Nat)
    (hv : validDimensions s = true)
    (hb : s.buffer = none ∨ ∃ b, s.buffer = some b ∧ b.length = size s)
    (hd : size s ≤ data.length) :
    copyData s (some data) = some { s with buffer := some (data.take (size s)) } := by
  simp only [copyData, hv, if_true, memcpy_full _ _ _ (target_length s hb) hd]

/-- With valid dimensions and a target block of `size()` bytes, `zeroData`
returns the image with `size()` zero bytes. -/
theorem zeroData_of_valid (s : ZImage)
    (hv : validDimensions s = true)
    (hb : s.buffer = none ∨ ∃ b, s.buffer = some b ∧ b.length = size s) :
    zeroData s = some { s with buffer := some (List.replicate (size s) 0) } := by
  simp only [zeroData, hv, if_true, memset_full _ 0 _ (target_length s hb)]

/-! ## Copy construction -/

/-- C11: for a loaded image `other` whose buffer `b` has length
`other.size()`, the copy constructor returns an image with the width, height,
channels and depth of `other`, which is loaded and whose buffer has length
`size()` and the bytes `b`; the result is computed from `other` by a pure
function, so `other` is not changed. -/
theorem mkCopy_deep_copy (other : ZImage) (b : List Nat)
    (hl : isLoaded other = true) (hb : other.buffer = some b)
    (hlen : b.length = size other) :
    ∃ c, mkCopy other = some c
      ∧ c.width = other.width ∧ c.height = other.height
      ∧ c.channels = other.channels ∧ c.depth = other.depth
      ∧ isLoaded c = true
      ∧ c.buffer = some b ∧ b.length = size c
      ∧ (∀ i, c.get i = other.get i) := by
  have hv : validDimensions other = true := by
    simp only [isLoaded, Bool.and_eq_true] at hl
    exact hl.1
  have hv1 : validDimensions (ZImage.mk other.width other.height other.channels
      other.depth none) = true := hv
  have hs : size (ZImage.mk other.width other.height other.channels other.depth none)
      = size other := rfl
  refine ⟨ZImage.mk other.width other.height other.channels other.depth (some b),
    ?_, rfl, rfl, rfl, rfl, ?_, rfl, hlen, ?_⟩
  · unfold mkCopy mkData
    rw [mkDims_eq, hb, copyData_of_valid _ b hv1 (Or.inl rfl) (by rw [hs, hlen])]
    rw [hs, ← hlen, List.take_length]
  · simp only [isLoaded, Option.isSome_some, Bool.and_true]
    exact hv
  · intro i
    simp only [ZImage.get, hb]

/-- C11 at the loaded 2x2 RGB image with bytes 1..12. -/
theorem mkCopy_deep_copy_witness :
    (isLoaded rgb2x2 = true ∧ mkCopy rgb2x2 = some rgb2x2) ∧
    ∃ c, mkCopy rgb2x2 = some c
      ∧ c.width = rgb2x2.width ∧ c.height = rgb2x2.height
      ∧ c.channels = rgb2x2.channels ∧ c.depth = rgb2x2.depth
      ∧ isLoaded c = true
      ∧ c.buffer = some [1, 2, 3, 4, 5, 6, 7, 8, 9, 10, 11, 12]
      ∧ [1, 2, 3, 4, 5, 6, 7, 8, 9, 10, 11, 12].length = size c
      ∧ (∀ i, c.get i = rgb2x2.get i) :=
  ⟨by decide,
    mkCopy_deep_copy rgb2x2 [1, 2, 3, 4, 5, 6, 7, 8, 9, 10, 11, 12] (by decide) rfl
      (by decide)⟩

/-! ## Metadata and frame properties -/

/-- C12: after `setDimensions(width, height, channels, depth)`, from any state
and for any four values, `width()`, `height()`, `channels()` and `depth()` are
the four requested values. -/
theorem setDimensions_installs_metadata (s : ZImage) (w h c d : Nat) :
    (setDimensions s w h c d).width = w ∧ (setDimensions s w h c d).height = h
      ∧ (setDimensions s w h c d).channels = c ∧ (setDimensions s w h c d).depth = d :=
  ⟨rfl, rfl, rfl, rfl⟩

/-- C13 (counterexample): `rgb2x2` is loaded with a buffer of `size() = 12`
bytes 1..12; `zeroData()` returns the image with 12 zero bytes, so byte 0 is 0
after the call and 1 before it. -/
theorem zeroData_overwrites_loaded_buffer :
    isLoaded rgb2x2 = true
    ∧ rgb2x2.buffer = some [1, 2, 3, 4, 5, 6, 7, 8, 9, 10, 11, 12]
    ∧ size rgb2x2 = 12
    ∧ zeroData rgb2x2 = some (ZImage.mk 2 2 3 8 (some (List.replicate 12 0)))
    ∧ rgb2x2.get 0 = some 1
    ∧ (ZImage.mk 2 2 3 8 (some (List.replicate 12 0))).get 0 = some 0 := by
  decide

/-- C13 (amended): on a loaded image whose buffer has length `size()`,
`newData()` leaves the whole state, buffer bytes and metadata, as it was;
`zeroData()` returns, leaves the metadata as it was and keeps a buffer of the
same length `size()`, every byte of which is zero. -/
theorem allocation_on_loaded (s : ZImage) (b : List Nat) (fresh : Nat → Nat)
    (hl : isLoaded s = true) (hb : s.buffer = some b) (hlen : b.length = size s) :
    newData s fresh = s
      ∧ zeroData s = some { s with buffer := some (List.replicate (size s) 0) }
      ∧ (List.replicate (size s) 0).length = b.length := by
  have hv : validDimensions s = true := by
    simp only [isLoaded, Bool.and_eq_true] at hl
    exact hl.1
  refine ⟨?_, zeroData_of_valid s hv (Or.inr ⟨b, hb, hlen⟩), ?_⟩
  · simp only [newData, hv, if_true, hb]
  · rw [List.length_replicate, hlen]

/-- C13 (amended) at the loaded 2x2 RGB image with bytes 1..12. -/
theorem allocation_on_loaded_witness :
    isLoaded rgb2x2 = true
      ∧ newData rgb2x2 (fun _ => 9) = rgb2x2
      ∧ zeroData rgb2x2 = some { rgb2x2 with buffer := some (List.replicate (size rgb2x2) 0) }
      ∧ (List.replicate (size rgb2x2) 0).length
          = [1, 2, 3, 4, 5, 6, 7, 8, 9, 10, 11, 12].length :=
  ⟨by decide,
    allocation_on_loaded rgb2x2 [1, 2, 3, 4, 5, 6, 7, 8, 9, 10, 11, 12] (fun _ => 9)
      (by decide) rfl (by decide)⟩

/-- C14: with valid dimensions, after `takeData(data)` the value of `buffer()`
is the supplied block `data`, with its bytes and its length whatever that
length is, `isLoaded()` is true, and width, height, channels and depth are
unchanged. -/
theorem takeData_adopts (s : ZImage) (data : List Nat)
    (hv : validDimensions s = true) :
    (takeData s (some data)).buffer = some data
      ∧ isLoaded (takeData s (some data)) = true
      ∧ (takeData s (some data)).width = s.width
      ∧ (takeData s (some data)).height = s.height
      ∧ (takeData s (some data)).channels = s.channels
      ∧ (takeData s (some data)).depth = s.depth := by
  have e : takeData s (some data) = { s with buffer := some data } := by
    simp only [takeData, hv, if_true]
  rw [e]
  refine ⟨rfl, ?_, rfl, rfl, rfl, rfl⟩
  simp only [isLoaded, Option.isSome_some, Bool.and_true]
  exact hv

/-- C14 at the 2x2 RGB image (`size()` 12) and a block of 3 bytes. -/
theorem takeData_adopts_witness :
    (validDimensions (mkDims 2 2 3 8) = true ∧ size (mkDims 2 2 3 8) = 12)
      ∧ (takeData (mkDims 2 2 3 8) (some [1, 2, 3])).buffer = some [1, 2, 3]
      ∧ isLoaded (takeData (mkDims 2 2 3 8) (some [1, 2, 3])) = true
      ∧ (takeData (mkDims 2 2 3 8) (some [1, 2, 3])).width = (mkDims 2 2 3 8).width
      ∧ (takeData (mkDims 2 2 3 8) (some [1, 2, 3])).height = (mkDims 2 2 3 8).height
      ∧ (takeData (mkDims 2 2 3 8) (some [1, 2, 3])).channels = (mkDims 2 2 3 8).channels
      ∧ (takeData (mkDims 2 2 3 8) (some [1, 2, 3])).depth = (mkDims 2 2 3 8).depth :=
  ⟨by decide, takeData_adopts (mkDims 2 2 3 8) [1, 2, 3] (by decide)⟩

/-- C15: `reformat(X, X)` returns the state it was called on, so the buffer
bytes, width, height, channels and depth are unchanged, for every state and
every label sequence `X`. -/
theorem reformat_same_labels (s : ZImage) (X : List Char) :
    reformat s X X = s
      ∧ (reformat s X X).buffer = s.buffer
      ∧ (reformat s X X).width = s.width ∧ (reformat s X X).height = s.height
      ∧ (reformat s X X).channels = s.channels ∧ (reformat s X X).depth = s.depth := by
  have e : reformat s X X = s := by simp [reformat]
  rw [e]
  exact ⟨rfl, rfl, rfl, rfl, rfl, rfl⟩

/-- C16 (the code installs no grown buffer): `gray1x1` is a loaded 1x1 image
with one 8-bit channel and buffer 7; the grown shape `(1,1,3,8)` is valid;
`setChannels(3)`, with fill 0 or 5, returns with `_channels = 3` and the
1-byte buffer unchanged while `size()` is 3. The local `temp` it drops holds
three zero bytes: the source byte is not copied and the fill is not used. -/
theorem setChannels_growth_keeps_buffer :
    isLoaded gray1x1 = true
    ∧ validDimensions (mkDims 1 1 3 8) = true
    ∧ setChannels gray1x1 3 0 = some (ZImage.mk 1 1 3 8 (some [7]))
    ∧ setChannels gray1x1 3 5 = some (ZImage.mk 1 1 3 8 (some [7]))
    ∧ size (ZImage.mk 1 1 3 8 (some [7])) = 3
    ∧ setChannelsTemp gray1x1 3 = some (some [0, 0, 0]) := by
  decide

end LibChaos

namespace LibChaos

open ZImage

/-! ## What `setChannels` does to the image -/

/-- The truncation loop makes no access when `realSize()` is 0. -/
theorem truncateLoop_rsize_zero (src : List Nat) (chOld chNew remaining i j cycle : Nat)
    (temp : List Nat) :
    truncateLoop src 0 chOld chNew remaining i j cycle temp = some temp := by
  cases remaining <;> simp [truncateLoop]

/-- The local `temp` of `setChannels` is built without an out-of-bounds access
when the channel count does not shrink or the image has no buffer. -/
theorem setChannelsTemp_isSome (s : ZImage) (n : Nat)
    (h : s.channels ≤ n ∨ s.buffer = none) :
    (setChannelsTemp s n).isSome = true := by
  unfold setChannelsTemp
  rw [mkDims_eq]
  by_cases hv : validDimensions (ZImage.mk s.width s.height n s.depth none) = true
  · simp only [hv, if_true, zeroData_of_valid _ hv (Or.inl rfl)]
    by_cases hc : s.channels > n
    · have hb : s.buffer = none := by
        rcases h with h | h
        · exact absurd hc (Nat.not_lt.mpr h)
        · exact h
      simp [hc, realSize, hb, truncateLoop_rsize_zero]
    · simp [hc]
  · simp [hv]

/-- Whenever `setChannels` returns, the state it returns is the old one with
the channel count replaced. -/
theorem setChannels_eq_of_isSome (s : ZImage) (n : Nat) (fill : Int)
    (h : (setChannels s n fill).isSome = true) :
    setChannels s n fill = some { s with channels := n } := by
  unfold setChannels at h ⊢
  by_cases hn : n = s.channels
  · subst hn
    simp
  · by_cases hv : validDimensions s = true
    · cases ht : setChannelsTemp s n with
      | none => simp [hn, hv, ht] at h
      | some t => simp [hn, hv]
    · simp [hn, hv]

/-- The call `setChannels` returns when the channel count does not shrink, the
dimensions are invalid, or the image has no buffer. -/
theorem setChannels_isSome (s : ZImage) (n : Nat) (fill : Int)
    (h : s.channels ≤ n ∨ validDimensions s = false ∨ s.buffer = none) :
    (setChannels s n fill).isSome = true := by
  unfold setChannels
  by_cases hn : n = s.channels
  · simp [hn]
  · by_cases hv : validDimensions s = true
    · have ht : (setChannelsTemp s n).isSome = true := by
        rcases h with h | h | h
        · exact setChannelsTemp_isSome s n (Or.inl h)
        · rw [hv] at h; cases h
        · exact setChannelsTemp_isSome s n (Or.inr h)
      cases hc : setChannelsTemp s n with
      | none => rw [hc] at ht; cases ht
      | some t => simp [hn, hv]
    · simp [hn, hv]

/-- When the truncation loop runs without an out-of-bounds access, the loop
as the machine runs it gives the same block, whatever the stray bytes. -/
theorem truncateLoopStray_agrees (stray : Nat → Nat) (src : List Nat)
    (rsize chOld chNew : Nat) :
    ∀ (remaining i j cycle : Nat) (temp r : List Nat),
      truncateLoop src rsize chOld chNew remaining i j cycle temp = some r →
      truncateLoopStray stray src rsize chOld chNew remaining i j cycle temp = r := by
  intro remaining
  induction remaining with
  | zero =>
    intro i j cycle temp r h
    simp only [truncateLoop, Option.some.injEq] at h
    simp only [truncateLoopStray]
    exact h
  | succ k ih =>
    intro i j cycle temp r h
    simp only [truncateLoop] at h
    simp only [truncateLoopStray]
    by_cases hj : j < rsize
    · rw [if_pos hj] at h
      rw [if_pos hj]
      cases hb : src[if cycle ≥ chOld then (j + (chOld - chNew)) % U64 else j]? with
      | none => simp only [hb] at h; cases h
      | some b =>
        simp only [hb] at h
        by_cases hi : i < temp.length
        · rw [if_pos hi] at h
          exact ih _ _ _ _ _ h
        · rw [if_neg hi] at h
          cases h
    · rw [if_neg hj] at h
      rw [if_neg hj]
      simp only [Option.some.injEq] at h
      exact h

/-- When the local `temp` of `setChannels` is built without an out-of-bounds
access, the build as the machine runs it gives the same block. -/
theorem setChannelsTempStray_agrees (stray : Nat → Nat) (s : ZImage) (n : Nat)
    (t : Option (List Nat)) (h : setChannelsTemp s n = some t) :
    setChannelsTempStray stray s n = t := by
  unfold setChannelsTemp at h
  unfold setChannelsTempStray
  rw [mkDims_eq] at h ⊢
  by_cases hv : validDimensions (ZImage.mk s.width s.height n s.depth none) = true
  · simp only [hv, if_true, zeroData_of_valid _ hv (Or.inl rfl)] at h ⊢
    by_cases hc : s.channels > n
    · simp only [hc, if_true] at h ⊢
      cases hl : truncateLoop (s.buffer.getD []) (realSize s) s.channels n
          (realSize (ZImage.mk s.width s.height n s.depth
            (some (List.replicate (size (ZImage.mk s.width s.height n s.depth none)) 0))))
          0 0 0 (List.replicate (size (ZImage.mk s.width s.height n s.depth none)) 0) with
      | none => rw [hl] at h; cases h
      | some r =>
        rw [hl] at h
        rw [truncateLoopStray_agrees stray _ _ _ _ _ _ _ _ _ r hl]
        simpa using h
    · simp only [hc, if_false] at h ⊢
      simpa using h
  · simp only [hv] at h ⊢
    simpa using h

/-- The state after `setChannels` as the machine runs it is the old state
with the channel count replaced. -/
theorem setChannelsStray_eq (stray : Nat → Nat) (s : ZImage) (n : Nat) (fill : Int) :
    setChannelsStray stray s n fill = { s with channels := n } := by
  unfold setChannelsStray
  by_cases hn : n = s.channels
  · subst hn
    simp
  · by_cases hv : validDimensions s = true
    · simp [hn, hv]
    · simp [hn, hv]

/-- Whenever `setChannels` makes no out-of-bounds access, the state it returns
is the state after the call as the machine runs it. -/
theorem setChannels_agrees (stray : Nat → Nat) (s s1 : ZImage) (n : Nat) (fill : Int)
    (h : setChannels s n fill = some s1) : s1 = setChannelsStray stray s n fill := by
  have hsome : (setChannels s n fill).isSome = true := by rw [h]; rfl
  have e := setChannels_eq_of_isSome s n fill hsome
  rw [h] at e
  rw [setChannelsStray_eq]
  exact Option.some.inj e

/-- C18 (the code reads past the buffer): `thin1x4` is loaded with a buffer of
`size() = 12` bytes and the temporary image for 2 channels is valid with
`size() = 8`; the truncation loop of `setChannels(2)` makes the accesses
`temp[i] = _buffer[j]` listed, the last of which reads `_buffer[12]`, one past
the end of the 12-byte block, and the build of `temp` fails on it. -/
theorem truncation_reads_past_buffer :
    isLoaded thin1x4 = true
    ∧ thin1x4.buffer = some [1, 2, 3, 4, 5, 6, 7, 8, 9, 10, 11, 12]
    ∧ size thin1x4 = 12
    ∧ validDimensions (mkDims 1 4 2 8) = true
    ∧ size (mkDims 1 4 2 8) = 8
    ∧ truncateAccesses (realSize thin1x4) thin1x4.channels 2 (size (mkDims 1 4 2 8)) 0 0 0
        = [(0, 0), (1, 1), (2, 2), (3, 4), (4, 6), (5, 8), (6, 10), (7, 12)]
    ∧ ¬ (12 < size thin1x4)
    ∧ [1, 2, 3, 4, 5, 6, 7, 8, 9, 10, 11, 12][12]? = (none : Option Nat)
    ∧ setChannelsTemp thin1x4 2 = none := by
  decide

/-! ## The size `setDimensions` compares -/

/-- C19 (the compared size is not the stored size): for width 1, height 1,
33 channels of depth 8, all in range, the expression
`width * height * ((zu8)(channels*depth) / 8)` is 1, while `size()` of the
image that has these four values stored is 33. -/
theorem requestedSize_differs_from_size :
    (1 < U64 ∧ 33 < U8 ∧ 8 < U8)
    ∧ requestedSize 1 1 33 8 = 1
    ∧ size (setDimensions empty 1 1 33 8) = 33
    ∧ requestedSize 1 1 33 8 ≠ size (setDimensions empty 1 1 33 8)
    ∧ (setDimensions empty 1 1 33 8).channels * (setDimensions empty 1 1 33 8).depth = 264 := by
  decide

end LibChaos

namespace LibChaos

open ZImage

/-! ## The size invariant on sequences without `setChannels` and `takeData` -/

/-- When `channels * depth` fits 8 bits, the size `setDimensions` compares is
the `size()` of an image with the requested values. -/
theorem requestedSize_eq_size (w h c d : Nat) (b : Option (List Nat)) (hcd : c * d < 256) :
    requestedSize w h c d = size (ZImage.mk w h c d b) := by
  have h1 : (c * d) % U8 = c * d := Nat.mod_eq_of_lt hcd
  have h2 : (c * d / 8) % U8 = c * d / 8 :=
    Nat.mod_eq_of_lt (lt_of_le_of_lt (Nat.div_le_self _ _) hcd)
  simp only [requestedSize, size, pixelSize, h1, h2]

/-- The image `setDimensions` returns, by whether it destroyed the buffer. -/
theorem setDimensions_cases (s : ZImage) (w h c d : Nat) :
    setDimensions s w h c d = ZImage.mk w h c d none
      ∨ (setDimensions s w h c d = ZImage.mk w h c d s.buffer
          ∧ w ≠ 0 ∧ h ≠ 0 ∧ c ≠ 0 ∧ d ≠ 0 ∧ ((c * d) % U8) % 8 = 0
          ∧ requestedSize w h c d = size s) := by
  unfold setDimensions
  by_cases hc : w = 0 ∨ h = 0 ∨ c = 0 ∨ d = 0 ∨ ((c * d) % U8) % 8 ≠ 0
      ∨ requestedSize w h c d ≠ size s
  · left
    rw [if_pos hc]
    rfl
  · right
    rw [if_neg hc]
    simp only [not_or, not_not] at hc
    exact ⟨rfl, hc.1, hc.2.1, hc.2.2.1, hc.2.2.2.1, hc.2.2.2.2.1, hc.2.2.2.2.2⟩

/-- An image without a buffer satisfies the invariant. -/
theorem loadedInvariant_of_none (s : ZImage) (h : s.buffer = none) : LoadedInvariant s := by
  intro b hb
  rw [h] at hb
  cases hb

/-- Under the invariant, the block `zeroData` and `copyData` write to has
length `size()`. -/
theorem loadedInvariant_target (s : ZImage) (hinv : LoadedInvariant s) :
    s.buffer = none ∨ ∃ b, s.buffer = some b ∧ b.length = size s := by
  cases hb : s.buffer with
  | none => exact Or.inl rfl
  | some b => exact Or.inr ⟨b, rfl, (hinv b hb).2⟩

/-- A restricted call made under its precondition on a state satisfying the
invariant returns, and the state it returns satisfies the invariant. -/
theorem restricted_step (s : ZImage) (op : Op) (hinv : LoadedInvariant s)
    (hr : op.Restricted) (ha : op.Admissible s) :
    ∃ s1, op.apply s = some s1 ∧ LoadedInvariant s1 := by
  cases op with
  | setDimensions w h c d =>
    refine ⟨setDimensions s w h c d, rfl, ?_⟩
    have hcd : c * d < 256 := hr
    rcases setDimensions_cases s w h c d with e | ⟨e, hw, hh, hc, hd, h8, hreq⟩
    · rw [e]
      exact loadedInvariant_of_none _ rfl
    · rw [e]
      intro b hb
      have hold := hinv b hb
      have hsz : size (ZImage.mk w h c d s.buffer) = size s := by
        rw [← requestedSize_eq_size w h c d s.buffer hcd, hreq]
      have hvs := (validDimensions_iff s).mp hold.1
      refine ⟨(validDimensions_iff _).mpr ⟨hw, hh, hc, hd, ?_, ?_⟩, ?_⟩
      · have h1 : (c * d) % U8 = c * d := Nat.mod_eq_of_lt hcd
        rw [h1] at h8
        exact h8
      · rw [hsz]
        exact hvs.2.2.2.2.2
      · rw [hsz]
        exact hold.2
  | newData fresh =>
    refine ⟨newData s fresh, rfl, ?_⟩
    unfold newData
    by_cases hv : validDimensions s = true
    · cases hb : s.buffer with
      | none =>
        simp only [hv, if_true]
        intro b hb1
        have hb2 : some (allocBytes (size s) fresh) = some b := hb1
        cases hb2
        exact ⟨hv, allocBytes_length _ _⟩
      | some b0 =>
        simp only [hv, if_true]
        exact hinv
    · simp only [hv]
      exact hinv
  | zeroData =>
    by_cases hv : validDimensions s = true
    · refine ⟨_, zeroData_of_valid s hv (loadedInvariant_target s hinv), ?_⟩
      intro b hb
      have hb2 : some (List.replicate (size s) 0) = some b := hb
      cases hb2
      exact ⟨hv, List.length_replicate _ _⟩
    · refine ⟨s, ?_, hinv⟩
      simp [Op.apply, zeroData, hv]
  | copyData data =>
    have hd : size s ≤ data.length := ha
    by_cases hv : validDimensions s = true
    · refine ⟨_, copyData_of_valid s data hv (loadedInvariant_target s hinv) hd, ?_⟩
      intro b hb
      have hb2 : some (data.take (size s)) = some b := hb
      cases hb2
      refine ⟨hv, ?_⟩
      rw [List.length_take, min_eq_left hd]
      rfl
    · refine ⟨s, ?_, hinv⟩
      simp [Op.apply, copyData, hv]
  | takeData data => exact absurd hr (by simp [Op.Restricted])
  | reformat before after =>
    refine ⟨s, ?_, hinv⟩
    simp [Op.apply, reformat]
  | setChannels n fill => exact absurd hr (by simp [Op.Restricted])
  | destroy =>
    exact ⟨destroy s, rfl, loadedInvariant_of_none _ rfl⟩

/-- Every prefix of a restricted sequence started in a state satisfying the
invariant runs to a state satisfying the invariant. -/
theorem restricted_run_prefix (ops : List Op) :
    ∀ (s : ZImage), LoadedInvariant s → RestrictedRun s ops →
      ∀ k, ∃ s1, run s (ops.take k) = some s1 ∧ LoadedInvariant s1 := by
  induction ops with
  | nil =>
    intro s hinv _ k
    exact ⟨s, by simp [run], hinv⟩
  | cons op ops ih =>
    intro s hinv hrun k
    cases k with
    | zero => exact ⟨s, by simp [run], hinv⟩
    | succ k =>
      obtain ⟨hr, ha, hrest⟩ := hrun
      obtain ⟨s1, hs1, hinv1⟩ := restricted_step s op hinv hr ha
      rw [hs1] at hrest
      obtain ⟨s2, hs2, hinv2⟩ := ih s1 hinv1 hrest k
      refine ⟨s2, ?_, hinv2⟩
      simp only [List.take_succ_cons, run, hs1]
      exact hs2

/-- C20: for a sequence of `setDimensions` calls with `channels*depth < 256`,
`newData`, `zeroData`, `copyData` (given at least `size()` bytes), `reformat`
and `destroy` applied to `ZImage()`, the whole sequence and every prefix of it
run to a state, and in each of these states a present buffer comes with
`validDimensions()` true and has length `size()`. -/
theorem restricted_size_invariant (ops : List Op) (h : RestrictedRun empty ops) :
    (∃ s, run empty ops = some s
      ∧ ∀ b, s.buffer = some b → validDimensions s = true ∧ b.length = size s)
    ∧ ∀ k, ∃ s, run empty (ops.take k) = some s
      ∧ ∀ b, s.buffer = some b → validDimensions s = true ∧ b.length = size s := by
  have hall := restricted_run_prefix ops empty (loadedInvariant_of_none _ rfl) h
  refine ⟨?_, hall⟩
  have hlen := hall ops.length
  rw [List.take_length] at hlen
  exact hlen

/-- C20 at a sequence of six restricted calls, which ends in a loaded 3x2
image with 2 channels and a 12-byte buffer. -/
theorem restricted_size_invariant_witness :
    RestrictedRun empty restrictedCalls
    ∧ run empty restrictedCalls = some (ZImage.mk 3 2 2 8 (some (List.range 12)))
    ∧ (∃ s, run empty restrictedCalls = some s
        ∧ ∀ b, s.buffer = some b → validDimensions s = true ∧ b.length = size s)
    ∧ ∀ k, ∃ s, run empty (restrictedCalls.take k) = some s
        ∧ ∀ b, s.buffer = some b → validDimensions s = true ∧ b.length = size s := by
  have h1 : zeroData (setDimensions empty 2 2 3 8)
      = some (ZImage.mk 2 2 3 8 (some (List.replicate 12 0))) := by decide
  have h2 : copyData (ZImage.mk 2 2 3 8 (some (List.replicate 12 0))) (some (List.range 13))
      = some (ZImage.mk 2 2 3 8 (some (List.range 12))) := by decide
  have hr : RestrictedRun empty restrictedCalls := by
    simp only [restrictedCalls, RestrictedRun, Op.Restricted, Op.Admissible, Op.apply, h1, h2]
    decide
  exact ⟨hr, by decide, restricted_size_invariant restrictedCalls hr⟩

end LibChaos
